import Mathlib

/-!
Verification of the load_balancer repository.

The development shallowly embeds the C++ sources under src/cpp:

* backend.cpp / backend.h: the SimpleBackend probe and forward operations,
  with the drogon transport abstracted as an environment-supplied outcome
  (a response, or the HttpException the client throws on transport error
  or timeout) plus the elapsed wall time of the attempt;
* round_robin_load_balancer.cpp: the cursor scan of next_available_backend,
  with the vector accesses made explicit so that out-of-bounds accesses are
  observable, and the request handler registered in main.cpp on top of it;
* least_response_load_balancer.cpp: the healthy/unhealthy partitions, the
  std::priority_queue with MinHeapBackendComparator modelled by its
  container contract (top is a greatest element in heap order, hence one of
  minimal response time), send_request, and the health-check cycle, tied
  into a small state machine over sequences of operations;
* the counting-semaphore discipline of the least-response balancer as an
  event trace (acquire / network await / release);
* the CLI11 option registration of main.cpp.

Theorems named Ci_* settle the corresponding claims about the spec.
-/

namespace LoadBalancerProof

/-- Health state of a backend (enum Health in health.h / main.cpp). -/
inductive Health where
  | Healthy
  | Unhealthy
deriving DecidableEq, Repr, Inhabited

/-- An HTTP response, as far as the balancer inspects one: status code and
body. drogon status constants: k200OK = 200, k206PartialContent = 206,
k503ServiceUnavailable = 503. -/
structure HttpResponse where
  statusCode : Nat
  body : String
deriving DecidableEq, Repr, Inhabited

/-- Outcome of one transport operation (drogon sendRequestCoro): either a
response arrived, or the client threw drogon::HttpException — which is how
the transport reports connection errors and timeouts. -/
inductive TransportResult where
  | ok (resp : HttpResponse)
  | exn
deriving DecidableEq, Repr, Inhabited

/-- Mutable fields of a SimpleBackend (backend.h lines 25-42): the address,
the atomic health flag and the atomic last measured response time in
milliseconds. The constructor initializes response_time_ms to 0. -/
structure BackendSt where
  backend_address : String
  backend_health : Health
  response_time_ms : Nat
deriving DecidableEq, Repr, Inhabited

/-- The status-code range test used throughout backend.cpp and
least_response_load_balancer.cpp: k200OK <= status <= k206PartialContent. -/
def statusInRange (s : Nat) : Bool :=
  decide (200 ≤ s) && decide (s ≤ 206)

/-- SimpleBackend::update_health_from_status_code (backend.cpp lines 69-84):
a status in range sets the health flag to Healthy, any other status sets it
to Unhealthy (the source only stores on an actual transition, with the same
resulting state). -/
def update_health_from_status_code (b : BackendSt) (response : HttpResponse) : BackendSt :=
  if statusInRange response.statusCode then
    { b with backend_health := Health.Healthy }
  else
    { b with backend_health := Health.Unhealthy }

/-- The response SimpleBackend::send_request constructs up front (backend.cpp
lines 40-41): 503 Service Unavailable with an empty body. -/
def synthesized503 : HttpResponse :=
  { statusCode := 503, body := "" }

/-- SimpleBackend::send_request (backend.cpp lines 37-65): forward the
request; when the transport yields a response with status in range return
it, otherwise keep the synthesized 503; update the health flag from the
status code, or force Unhealthy when the transport throws; in every case
store the elapsed wall time (supplied by the environment) into
response_time_ms after the try/catch. -/
def SimpleBackend.send_request (b : BackendSt) (tr : TransportResult) (elapsed : Nat) :
    HttpResponse × BackendSt :=
  match tr with
  | TransportResult.ok response =>
    let http_response :=
      if statusInRange response.statusCode then response else synthesized503
    let b1 := update_health_from_status_code b response
    (http_response, { b1 with response_time_ms := elapsed })
  | TransportResult.exn =>
    (synthesized503,
      { b with backend_health := Health.Unhealthy, response_time_ms := elapsed })

/-- SimpleBackend::check_health (backend.cpp lines 11-33): GET /health;
update the health flag from the status code, or force Unhealthy when the
transport throws; in every case store the elapsed wall time into
response_time_ms after the try/catch. -/
def SimpleBackend.check_health (b : BackendSt) (tr : TransportResult) (elapsed : Nat) :
    BackendSt :=
  match tr with
  | TransportResult.ok response =>
    let b1 := update_health_from_status_code b response
    { b1 with response_time_ms := elapsed }
  | TransportResult.exn =>
    { b with backend_health := Health.Unhealthy, response_time_ms := elapsed }

/-- C5: forward never propagates a transport failure to its caller: for every
prior backend state, transport outcome and elapsed time, SimpleBackend's
send_request yields the upstream response exactly when the upstream status
is in the range 200..206, and yields the synthesized 503 Service Unavailable
response for any other upstream status and for any transport error or
timeout (both of which surface as the thrown HttpException). -/
theorem C5_forward_never_throws (b : BackendSt) (tr : TransportResult) (elapsed : Nat) :
    (SimpleBackend.send_request b tr elapsed).1 =
      match tr with
      | TransportResult.ok r =>
          if statusInRange r.statusCode then r else synthesized503
      | TransportResult.exn => synthesized503 := by
  cases tr with
  | ok r =>
    simp only [SimpleBackend.send_request]
  | exn =>
    simp only [SimpleBackend.send_request]

/-- C6: a probe, from any prior health state, sets the health flag to Healthy
exactly when the request completed with status in 200..206, and to Unhealthy
on any other status or on a transport error or timeout; and on every outcome,
including failure, the measured elapsed time is stored in response_time_ms. -/
theorem C6_probe_health_and_timing (b : BackendSt) (tr : TransportResult) (elapsed : Nat) :
    (SimpleBackend.check_health b tr elapsed).backend_health =
      (match tr with
       | TransportResult.ok r =>
           if statusInRange r.statusCode then Health.Healthy else Health.Unhealthy
       | TransportResult.exn => Health.Unhealthy) ∧
    (SimpleBackend.check_health b tr elapsed).response_time_ms = elapsed := by
  cases tr with
  | ok r =>
    constructor
    · simp only [SimpleBackend.check_health, update_health_from_status_code]
      by_cases h : statusInRange r.statusCode <;> simp [h]
    · simp [SimpleBackend.check_health]
  | exn =>
    constructor <;> simp [SimpleBackend.check_health]

/-- State of a RoundRobinLoadBalancer (round_robin_load_balancer.h lines
26-32): the configured backends vector and the atomic cursor
current_backend_index (initialized to 0 by the constructor). -/
structure RRState where
  backends : List BackendSt
  current_backend_index : Nat
deriving DecidableEq, Repr, Inhabited

/-- Result of RoundRobinLoadBalancer::next_available_backend: the index of
the selected backend together with the new cursor; the
runtime_error thrown when no backend is healthy, carrying the cursor value
at the throw; or an out-of-bounds vector access (undefined behavior in the
C++ source), carrying the offending index. -/
inductive RRRes where
  | ok (idx : Nat) (cursor : Nat)
  | poolEmpty (cursor : Nat)
  | indexErr (idx : Nat)
deriving DecidableEq, Repr

/-- The scan loop of RoundRobinLoadBalancer::next_available_backend
(round_robin_load_balancer.cpp lines 20-48). Every vector access
backends[current_backend_index] is made explicit through get?, so an
out-of-bounds access shows up as indexErr. fuel equals
backends.size() - tried_backends; the loop body advances the cursor,
increments tried_backends and throws once tried_backends reaches the size,
i.e. once fuel has dropped to 1 or below at an unhealthy slot. -/
def rr_next_go (bs : List BackendSt) : Nat → Nat → RRRes
  | cursor, 0 =>
    match bs.get? cursor with
    | none => RRRes.indexErr cursor
    | some b =>
      if b.backend_health = Health.Unhealthy then
        RRRes.poolEmpty ((cursor + 1) % bs.length)
      else
        RRRes.ok cursor ((cursor + 1) % bs.length)
  | cursor, Nat.succ fuel =>
    match bs.get? cursor with
    | none => RRRes.indexErr cursor
    | some b =>
      if b.backend_health = Health.Unhealthy then
        if fuel = 0 then RRRes.poolEmpty ((cursor + 1) % bs.length)
        else rr_next_go bs ((cursor + 1) % bs.length) fuel
      else
        RRRes.ok cursor ((cursor + 1) % bs.length)

/-- RoundRobinLoadBalancer::next_available_backend: run the scan starting at
the current cursor with tried_backends = 0, i.e. fuel = backends.size(). -/
def next_available_backend (s : RRState) : RRRes :=
  rr_next_go s.backends s.current_backend_index s.backends.length

/-- One selection step as observed by a client of the round-robin balancer:
the address of the returned backend (none when the selection throws) and the
balancer state afterwards. -/
def rr_select_addr (s : RRState) : Option String × RRState :=
  match next_available_backend s with
  | RRRes.ok idx cursor =>
      ((s.backends.get? idx).map BackendSt.backend_address,
        { s with current_backend_index := cursor })
  | RRRes.poolEmpty cursor => (none, { s with current_backend_index := cursor })
  | RRRes.indexErr _ => (none, s)

/-- The addresses returned by k successive selections. -/
def rr_run (s : RRState) : Nat → List (Option String)
  | 0 => []
  | Nat.succ k => (rr_select_addr s).1 :: rr_run (rr_select_addr s).2 k

/-- A healthy backend for the literal three-backend scenario. -/
def mkHealthy (addr : String) : BackendSt :=
  { backend_address := addr, backend_health := Health.Healthy, response_time_ms := 0 }

/-- The pool of the literal end-to-end scenario: backends A, B, C, all
healthy, cursor at 0 as set by the constructor. -/
def rrABC : RRState :=
  { backends := [mkHealthy "A", mkHealthy "B", mkHealthy "C"], current_backend_index := 0 }

/-- The request handler registered in main.cpp (lines 194-215) over the
selection of round_robin_load_balancer.cpp and the forward of backend.cpp:
try to select a backend and forward the client's request to it; when the
selection throws the runtime_error, answer 503 with body
"No healthy backends available" and leave the pool alone. An out-of-bounds
access in the selection is undefined behavior, rendered here as none. -/
def handle_request (s : RRState) (tr : TransportResult) (elapsed : Nat) :
    Option (HttpResponse × RRState) :=
  match next_available_backend s with
  | RRRes.ok idx cursor =>
      match s.backends.get? idx with
      | none => none
      | some b =>
        let fwd := SimpleBackend.send_request b tr elapsed
        some (fwd.1, { backends := s.backends.set idx fwd.2, current_backend_index := cursor })
  | RRRes.poolEmpty cursor =>
      some ({ statusCode := 503, body := "No healthy backends available" },
        { s with current_backend_index := cursor })
  | RRRes.indexErr _ => none

/-- A healthy slot under the cursor is returned at once, whatever the fuel. -/
theorem rr_next_go_healthy (bs : List BackendSt) (cursor fuel : Nat) (b : BackendSt)
    (hget : bs.get? cursor = some b) (hb : b.backend_health = Health.Healthy) :
    rr_next_go bs cursor fuel = RRRes.ok cursor ((cursor + 1) % bs.length) := by
  simp only [List.get?_eq_getElem?] at hget
  cases fuel <;> simp [rr_next_go, hget, hb]

/-- When every backend is unhealthy, the scan throws after advancing the
cursor max fuel 1 times, landing on (cursor + max fuel 1) mod size. -/
theorem rr_next_go_all_unhealthy (bs : List BackendSt)
    (hU : ∀ b ∈ bs, b.backend_health = Health.Unhealthy) :
    ∀ (fuel cursor : Nat), cursor < bs.length →
      rr_next_go bs cursor fuel = RRRes.poolEmpty ((cursor + max fuel 1) % bs.length) := by
  intro fuel
  induction fuel with
  | zero =>
    intro cursor hc
    have hget := List.get?_eq_get hc
    have hmem := List.get?_mem hget
    have hhu : (bs.get ⟨cursor, hc⟩).backend_health = Health.Unhealthy := hU _ hmem
    simp only [List.get?_eq_getElem?, List.get_eq_getElem] at hget hhu
    simp [rr_next_go, hget, hhu]
  | succ f ih =>
    intro cursor hc
    have hget := List.get?_eq_get hc
    have hmem := List.get?_mem hget
    have hhu : (bs.get ⟨cursor, hc⟩).backend_health = Health.Unhealthy := hU _ hmem
    simp only [List.get?_eq_getElem?, List.get_eq_getElem] at hget hhu
    match f with
    | 0 => simp [rr_next_go, hget, hhu]
    | Nat.succ g =>
      have hlen : 0 < bs.length := Nat.lt_of_le_of_lt (Nat.zero_le _) hc
      have hc' : (cursor + 1) % bs.length < bs.length := Nat.mod_lt _ hlen
      have hstep : rr_next_go bs cursor (Nat.succ (Nat.succ g)) =
          rr_next_go bs ((cursor + 1) % bs.length) (Nat.succ g) := by
        simp [rr_next_go, hget, hhu]
      rw [hstep, ih ((cursor + 1) % bs.length) hc']
      have h1 : Nat.succ g ⊔ 1 = g + 1 := by omega
      have h2 : Nat.succ (Nat.succ g) ⊔ 1 = g + 2 := by omega
      rw [h1, h2]
      congr 1
      rw [Nat.mod_add_mod]
      congr 1
      omega

/-- C2: on a round-robin pool whose backends are all healthy, a selection
returns the backend at position cursor mod size and advances the cursor by
one (modulo the size); in particular four successive selections over the
all-healthy pool A, B, C starting at cursor 0 return A, B, C, A. -/
theorem C2_round_robin_order :
    (∀ (s : RRState), (∀ b ∈ s.backends, b.backend_health = Health.Healthy) →
      s.current_backend_index < s.backends.length →
      next_available_backend s =
        RRRes.ok (s.current_backend_index % s.backends.length)
          ((s.current_backend_index + 1) % s.backends.length)) ∧
    rr_run rrABC 4 = [some "A", some "B", some "C", some "A"] := by
  constructor
  · intro s hH hc
    have hget := List.get?_eq_get hc
    have hH' := hH _ (List.get?_mem hget)
    rw [show s.current_backend_index % s.backends.length = s.current_backend_index
      from Nat.mod_eq_of_lt hc]
    exact rr_next_go_healthy _ _ _ _ hget hH'
  · rfl

/-- Witness for C2 at the literal pool of backends A, B, C. -/
theorem C2_round_robin_order_witness :
    next_available_backend rrABC = RRRes.ok (0 % 3) ((0 + 1) % 3) ∧
    rr_run rrABC 4 = [some "A", some "B", some "C", some "A"] :=
  ⟨C2_round_robin_order.1 rrABC (by decide) (by decide), C2_round_robin_order.2⟩

/-- C4: when no backend is healthy at selection time, next_available_backend
throws (PoolEmpty) with the cursor back at its starting value, the handler
answers 503 with body "No healthy backends available", and the pool state —
backends vector (hence partition membership) and cursor — is exactly the
state before the call. -/
theorem C4_pool_empty_503 (s : RRState) (tr : TransportResult) (elapsed : Nat)
    (hU : ∀ b ∈ s.backends, b.backend_health = Health.Unhealthy)
    (hne : s.backends ≠ []) (hc : s.current_backend_index < s.backends.length) :
    next_available_backend s = RRRes.poolEmpty s.current_backend_index ∧
    handle_request s tr elapsed =
      some ({ statusCode := 503, body := "No healthy backends available" }, s) := by
  have hn1 : 1 ≤ s.backends.length := by
    cases hbs : s.backends with
    | nil => exact absurd hbs hne
    | cons a l => simp [hbs]
  have hmax : s.backends.length ⊔ 1 = s.backends.length := by omega
  have hnext : next_available_backend s = RRRes.poolEmpty s.current_backend_index := by
    rw [next_available_backend, rr_next_go_all_unhealthy s.backends hU _ _ hc, hmax]
    congr 1
    rw [Nat.add_mod_right]
    exact Nat.mod_eq_of_lt hc
  refine ⟨hnext, ?_⟩
  rw [handle_request, hnext]

/-- An all-unhealthy single-backend pool. -/
def rrAllDown : RRState :=
  { backends :=
      [{ backend_address := "A", backend_health := Health.Unhealthy, response_time_ms := 0 }],
    current_backend_index := 0 }

/-- Witness for C4 on the all-unhealthy single-backend pool. -/
theorem C4_pool_empty_503_witness :
    next_available_backend rrAllDown = RRRes.poolEmpty 0 ∧
    handle_request rrAllDown TransportResult.exn 0 =
      some ({ statusCode := 503, body := "No healthy backends available" }, rrAllDown) :=
  C4_pool_empty_503 rrAllDown TransportResult.exn 0 (by decide) (by decide) (by decide)

/-- C10: as long as the backends vector is non-empty and the cursor is below
its size (the constructor starts it at 0 and every update reduces it modulo
the size), no vector access of next_available_backend is out of bounds,
whatever the fuel; with an empty vector the very first access is out of
bounds. -/
theorem C10_index_in_bounds :
    (∀ (bs : List BackendSt) (cursor fuel : Nat), bs ≠ [] → cursor < bs.length →
      ∀ k, rr_next_go bs cursor fuel ≠ RRRes.indexErr k) ∧
    (∀ (cursor fuel : Nat), rr_next_go [] cursor fuel = RRRes.indexErr cursor) := by
  constructor
  · intro bs cursor fuel hne
    have hlen : 0 < bs.length := List.length_pos.mpr hne
    induction fuel generalizing cursor with
    | zero =>
      intro hc k
      have hget := List.get?_eq_get hc
      simp only [List.get?_eq_getElem?, List.get_eq_getElem] at hget
      simp only [rr_next_go, List.get?_eq_getElem?, hget]
      split <;> simp
    | succ f ih =>
      intro hc k
      have hget := List.get?_eq_get hc
      simp only [List.get?_eq_getElem?, List.get_eq_getElem] at hget
      simp only [rr_next_go, List.get?_eq_getElem?, hget]
      by_cases hu : bs[cursor].backend_health = Health.Unhealthy
      · rw [if_pos hu]
        by_cases hf : f = 0
        · simp [hf]
        · rw [if_neg hf]
          exact ih ((cursor + 1) % bs.length) (Nat.mod_lt _ hlen) k
      · simp [hu]
  · intro cursor fuel
    cases fuel <;> simp [rr_next_go]

/-- Witness for C10 on a singleton pool and on the empty vector. -/
theorem C10_index_in_bounds_witness :
    rr_next_go rrAllDown.backends 0 1 ≠ RRRes.indexErr 0 ∧
    rr_next_go [] 0 0 = RRRes.indexErr 0 :=
  ⟨C10_index_in_bounds.1 rrAllDown.backends 0 1 (by decide) (by decide) 0,
   C10_index_in_bounds.2 0 0⟩

/-- MinHeapBackendComparator (least_response_load_balancer.h lines 27-31):
the comparator handed to std::priority_queue; it orders l below r in the
heap exactly when l's response_time is greater than r's, so that the top of
the heap is a backend with minimal response time. -/
def MinHeapBackendComparator (l r : BackendSt) : Bool :=
  decide (r.response_time_ms < l.response_time_ms)

/-- Dereference a backend id into the construction vector (a shared_ptr in
the source). -/
def backendAt (data : List BackendSt) (i : Nat) : BackendSt :=
  (data.get? i).getD default

/-- Top of the priority queue holding the given ids, per the
std::priority_queue contract: top() is an element no other element is
above w.r.t. MinHeapBackendComparator. The fold keeps the current candidate
and replaces it whenever the comparator places it below the next element,
which resolves ties towards the earlier element (any stable tie-break is
acceptable per the source's comparator, a strict ordering on response
times). Returns none exactly when the queue is empty. -/
def pq_top (data : List BackendSt) : List Nat → Option Nat
  | [] => none
  | i :: is =>
      some (is.foldl
        (fun acc j =>
          if MinHeapBackendComparator (backendAt data acc) (backendAt data j) then j else acc)
        i)

/-- State of a LeastResponseLoadBalancer (least_response_load_balancer.h
lines 33-40): the per-backend records (addressed by id, i.e. position in the
construction vector), the contents of the healthy_backends priority queue
and the unhealthy_backends vector, both as lists of ids. -/
structure LRState where
  data : List BackendSt
  healthy_backends : List Nat
  unhealthy_backends : List Nat
deriving DecidableEq, Repr

/-- The constructor (least_response_load_balancer.cpp lines 5-17): every
configured backend is pushed into healthy_backends; unhealthy_backends
starts empty. -/
def lr_init (data : List BackendSt) : LRState :=
  { data := data, healthy_backends := List.range data.length, unhealthy_backends := [] }

/-- The runtime_error thrown by send_request when healthy_backends is
empty. -/
inductive LRError where
  | poolEmpty
deriving DecidableEq, Repr

/-- LeastResponseLoadBalancer::send_request (least_response_load_balancer.cpp
lines 89-114): if the healthy queue is empty, throw; otherwise pop the top
backend, forward the request to it, and push it onto unhealthy_backends when
the returned status is outside 200..206, back onto healthy_backends
otherwise. Returns the response, the selected id and the new state. -/
def lr_send_request (s : LRState) (tr : TransportResult) (elapsed : Nat) :
    Except LRError (HttpResponse × Nat × LRState) :=
  match pq_top s.data s.healthy_backends with
  | none => Except.error LRError.poolEmpty
  | some i =>
    let healthy1 := s.healthy_backends.erase i
    let fwd := SimpleBackend.send_request (backendAt s.data i) tr elapsed
    let data1 := s.data.set i fwd.2
    if fwd.1.statusCode < 200 ∨ 206 < fwd.1.statusCode then
      Except.ok (fwd.1, i,
        { data := data1, healthy_backends := healthy1,
          unhealthy_backends := s.unhealthy_backends ++ [i] })
    else
      Except.ok (fwd.1, i,
        { data := data1, healthy_backends := i :: healthy1,
          unhealthy_backends := s.unhealthy_backends })

/-- The first loop of check_backend_healths (least_response_load_balancer.cpp
lines 31-43): drain the healthy queue top-first, probe each backend, and
classify it into the new healthy heap or the new unhealthy vector according
to the health flag the probe left. probes supplies, per backend id, the
transport outcome and elapsed time of its probe. fuel equals the number of
queued ids (the loop runs until the queue is empty; each pop removes exactly
one id). Returns the updated records and the two accumulated partitions. -/
def lr_drain_healthy (probes : Nat → TransportResult × Nat) :
    List BackendSt → List Nat → Nat → List BackendSt × List Nat × List Nat
  | data, _, 0 => (data, [], [])
  | data, ids, Nat.succ fuel =>
    match pq_top data ids with
    | none => (data, [], [])
    | some i =>
      let pr := probes i
      let b1 := SimpleBackend.check_health (backendAt data i) pr.1 pr.2
      let rest := lr_drain_healthy probes (data.set i b1) (ids.erase i) fuel
      if b1.backend_health = Health.Healthy then
        (rest.1, i :: rest.2.1, rest.2.2)
      else
        (rest.1, rest.2.1, i :: rest.2.2)

/-- The second loop of check_backend_healths (lines 45-55): probe every
backend of the unhealthy vector in order and classify it the same way. -/
def lr_probe_unhealthy (probes : Nat → TransportResult × Nat) :
    List BackendSt → List Nat → List BackendSt × List Nat × List Nat
  | data, [] => (data, [], [])
  | data, i :: is =>
    let pr := probes i
    let b1 := SimpleBackend.check_health (backendAt data i) pr.1 pr.2
    let rest := lr_probe_unhealthy probes (data.set i b1) is
    if b1.backend_health = Health.Healthy then
      (rest.1, i :: rest.2.1, rest.2.2)
    else
      (rest.1, rest.2.1, i :: rest.2.2)

/-- LeastResponseLoadBalancer::check_backend_healths (lines 19-67): drain and
probe the healthy queue, probe the unhealthy vector, then install the two
freshly built partitions. -/
def lr_check_backend_healths (s : LRState) (probes : Nat → TransportResult × Nat) : LRState :=
  let r1 := lr_drain_healthy probes s.data s.healthy_backends s.healthy_backends.length
  let r2 := lr_probe_unhealthy probes r1.1 s.unhealthy_backends
  { data := r2.1,
    healthy_backends := r1.2.1 ++ r2.2.1,
    unhealthy_backends := r1.2.2 ++ r2.2.2 }

/-- The operations that touch the pool after construction: a dispatched
client request (with its transport outcome and elapsed time), or one cycle
of the health monitor (with the outcome of each backend's probe). -/
inductive LROp where
  | sendRequest (tr : TransportResult) (elapsed : Nat)
  | healthCycle (probes : Nat → TransportResult × Nat)

/-- One pool transition: a send_request (its thrown PoolEmpty leaves the
state untouched) or a health-check cycle. -/
def lr_step (s : LRState) : LROp → LRState
  | LROp.sendRequest tr elapsed =>
    match lr_send_request s tr elapsed with
    | Except.error _ => s
    | Except.ok r => r.2.2
  | LROp.healthCycle probes => lr_check_backend_healths s probes

/-- The pool state after a sequence of operations from construction. -/
def lr_run (data : List BackendSt) (ops : List LROp) : LRState :=
  ops.foldl lr_step (lr_init data)

/-- The ids across both partitions, healthy first. -/
def lr_ids (s : LRState) : List Nat :=
  s.healthy_backends ++ s.unhealthy_backends

/-- The fold underlying pq_top returns its seed or a list element. -/
theorem pq_fold_mem (data : List BackendSt) :
    ∀ (is : List Nat) (i : Nat),
      (is.foldl (fun acc j =>
          if MinHeapBackendComparator (backendAt data acc) (backendAt data j) then j else acc) i)
        ∈ i :: is := by
  intro is
  induction is with
  | nil => intro i; simp
  | cons j is ih =>
    intro i
    simp only [List.foldl_cons]
    rcases List.mem_cons.mp
        (ih (if MinHeapBackendComparator (backendAt data i) (backendAt data j) then j
             else i)) with h1 | h1
    · rw [h1]
      by_cases hc : MinHeapBackendComparator (backendAt data i) (backendAt data j)
      · rw [if_pos hc]
        exact List.mem_cons_of_mem _ (List.mem_cons_self _ _)
      · rw [if_neg hc]
        exact List.mem_cons_self _ _
    · exact List.mem_cons_of_mem _ (List.mem_cons_of_mem _ h1)

/-- The fold underlying pq_top returns an element of minimal response time
among the seed and the list. -/
theorem pq_fold_min (data : List BackendSt) :
    ∀ (is : List Nat) (i j : Nat), j ∈ i :: is →
      (backendAt data (is.foldl (fun acc k =>
          if MinHeapBackendComparator (backendAt data acc) (backendAt data k) then k else acc)
          i)).response_time_ms
        ≤ (backendAt data j).response_time_ms := by
  intro is
  induction is with
  | nil =>
    intro i j hj
    simp only [List.mem_singleton] at hj
    subst hj
    exact le_refl _
  | cons k is ih =>
    intro i j hj
    simp only [List.foldl_cons]
    have hseed_i : (backendAt data
        (if MinHeapBackendComparator (backendAt data i) (backendAt data k) then k
         else i)).response_time_ms ≤ (backendAt data i).response_time_ms := by
      by_cases hc : MinHeapBackendComparator (backendAt data i) (backendAt data k)
      · rw [if_pos hc]
        have := of_decide_eq_true hc
        exact le_of_lt this
      · rw [if_neg hc]
    have hseed_k : (backendAt data
        (if MinHeapBackendComparator (backendAt data i) (backendAt data k) then k
         else i)).response_time_ms ≤ (backendAt data k).response_time_ms := by
      by_cases hc : MinHeapBackendComparator (backendAt data i) (backendAt data k)
      · rw [if_pos hc]
      · rw [if_neg hc]
        simpa [MinHeapBackendComparator] using hc
    have hfold_seed := ih
      (if MinHeapBackendComparator (backendAt data i) (backendAt data k) then k else i)
      (if MinHeapBackendComparator (backendAt data i) (backendAt data k) then k else i)
      (List.mem_cons_self _ _)
    rcases List.mem_cons.mp hj with h1 | h1
    · subst h1
      exact le_trans hfold_seed hseed_i
    · rcases List.mem_cons.mp h1 with h2 | h2
      · subst h2
        exact le_trans hfold_seed hseed_k
      · exact ih _ j (List.mem_cons_of_mem _ h2)

/-- pq_top yields an id from the queue. -/
theorem pq_top_mem {data : List BackendSt} {ids : List Nat} {i : Nat}
    (h : pq_top data ids = some i) : i ∈ ids := by
  cases ids with
  | nil => simp [pq_top] at h
  | cons a l =>
    simp only [pq_top, Option.some.injEq] at h
    exact h ▸ pq_fold_mem data l a

/-- pq_top yields an id whose backend has minimal response time in the
queue. -/
theorem pq_top_min {data : List BackendSt} {ids : List Nat} {i : Nat}
    (h : pq_top data ids = some i) :
    ∀ j ∈ ids, (backendAt data i).response_time_ms ≤ (backendAt data j).response_time_ms := by
  cases ids with
  | nil => simp [pq_top] at h
  | cons a l =>
    simp only [pq_top, Option.some.injEq] at h
    intro j hj
    exact h ▸ pq_fold_min data l a j hj

/-- pq_top is none exactly on the empty queue. -/
theorem pq_top_eq_none {data : List BackendSt} {ids : List Nat} :
    pq_top data ids = none ↔ ids = [] := by
  cases ids <;> simp [pq_top]

/-- Unfolding of a successful lr_send_request: the selected id is the top of
the healthy queue, the response is the forward's response, the record vector
is updated at the selected id, and the selected id moves to the partition
dictated by the response status. -/
theorem lr_send_request_cases {s : LRState} {tr : TransportResult} {elapsed : Nat}
    {resp : HttpResponse} {i : Nat} {s' : LRState}
    (h : lr_send_request s tr elapsed = Except.ok (resp, i, s')) :
    pq_top s.data s.healthy_backends = some i ∧
    resp = (SimpleBackend.send_request (backendAt s.data i) tr elapsed).1 ∧
    s'.data = s.data.set i (SimpleBackend.send_request (backendAt s.data i) tr elapsed).2 ∧
    ((resp.statusCode < 200 ∨ 206 < resp.statusCode) →
      s'.healthy_backends = s.healthy_backends.erase i ∧
      s'.unhealthy_backends = s.unhealthy_backends ++ [i]) ∧
    (¬(resp.statusCode < 200 ∨ 206 < resp.statusCode) →
      s'.healthy_backends = i :: s.healthy_backends.erase i ∧
      s'.unhealthy_backends = s.unhealthy_backends) := by
  unfold lr_send_request at h
  cases htop : pq_top s.data s.healthy_backends with
  | none =>
    rw [htop] at h
    cases h
  | some i0 =>
    rw [htop] at h
    dsimp only at h
    split at h
    case isTrue hcond =>
      simp only [Except.ok.injEq, Prod.mk.injEq] at h
      obtain ⟨h1, h2, h3⟩ := h
      subst h2
      subst h1
      subst h3
      exact ⟨rfl, rfl, rfl, fun _ => ⟨rfl, rfl⟩, fun hn => absurd hcond hn⟩
    case isFalse hcond =>
      simp only [Except.ok.injEq, Prod.mk.injEq] at h
      obtain ⟨h1, h2, h3⟩ := h
      subst h2
      subst h1
      subst h3
      exact ⟨rfl, rfl, rfl, fun hy => absurd hy hcond, fun _ => ⟨rfl, rfl⟩⟩

/-- A dispatched request conserves the multiset of ids across the two
partitions and the length of the record vector. -/
theorem lr_send_request_perm {s : LRState} {tr : TransportResult} {elapsed : Nat}
    {resp : HttpResponse} {i : Nat} {s' : LRState}
    (h : lr_send_request s tr elapsed = Except.ok (resp, i, s')) :
    (lr_ids s').Perm (lr_ids s) ∧ s'.data.length = s.data.length := by
  obtain ⟨htop, hresp, hdata, hfail, hok⟩ := lr_send_request_cases h
  have hmem : i ∈ s.healthy_backends := pq_top_mem htop
  have hperm : s.healthy_backends.Perm (i :: s.healthy_backends.erase i) :=
    List.perm_cons_erase hmem
  constructor
  · by_cases hcond : resp.statusCode < 200 ∨ 206 < resp.statusCode
    · obtain ⟨hh, hu⟩ := hfail hcond
      rw [lr_ids, lr_ids, hh, hu]
      have p1 : (s.unhealthy_backends ++ [i]).Perm (i :: s.unhealthy_backends) := by
        have h6 := @List.perm_append_comm Nat s.unhealthy_backends [i]
        simp only [List.singleton_append] at h6
        exact h6
      have p2 := List.Perm.append_left (s.healthy_backends.erase i) p1
      have p3 : (s.healthy_backends.erase i ++ (i :: s.unhealthy_backends)).Perm
          (i :: (s.healthy_backends.erase i ++ s.unhealthy_backends)) := List.perm_middle
      have p4 : (i :: (s.healthy_backends.erase i ++ s.unhealthy_backends)).Perm
          (s.healthy_backends ++ s.unhealthy_backends) := by
        have h5 := List.Perm.append_right s.unhealthy_backends hperm.symm
        simpa using h5
      exact p2.trans (p3.trans p4)
    · obtain ⟨hh, hu⟩ := hok hcond
      rw [lr_ids, lr_ids, hh, hu]
      have h5 := List.Perm.append_right s.unhealthy_backends hperm.symm
      simp only [List.cons_append] at h5
      exact h5
  · rw [hdata, List.length_set]

/-- Draining the healthy queue with fuel equal to its length conserves the
ids (the two outputs repartition exactly them) and the record-vector
length. -/
theorem lr_drain_healthy_perm (probes : Nat → TransportResult × Nat) :
    ∀ (fuel : Nat) (data : List BackendSt) (ids : List Nat), ids.length = fuel →
      ((lr_drain_healthy probes data ids fuel).2.1 ++
          (lr_drain_healthy probes data ids fuel).2.2).Perm ids ∧
      (lr_drain_healthy probes data ids fuel).1.length = data.length := by
  intro fuel
  induction fuel with
  | zero =>
    intro data ids hlen
    have hnil : ids = [] := List.length_eq_zero.mp hlen
    subst hnil
    simp [lr_drain_healthy]
  | succ f ih =>
    intro data ids hlen
    cases ids with
    | nil => simp at hlen
    | cons a l =>
      obtain ⟨i, htop⟩ : ∃ i, pq_top data (a :: l) = some i := ⟨_, rfl⟩
      have hmem : i ∈ a :: l := pq_top_mem htop
      have hlen' : ((a :: l).erase i).length = f := by
        rw [List.length_erase_of_mem hmem]
        simpa using hlen
      have hperm : (a :: l).Perm (i :: (a :: l).erase i) := List.perm_cons_erase hmem
      simp only [lr_drain_healthy, htop]
      have ihr := ih
        (data.set i (SimpleBackend.check_health (backendAt data i) (probes i).1 (probes i).2))
        ((a :: l).erase i) hlen'
      by_cases hb : (SimpleBackend.check_health (backendAt data i) (probes i).1
          (probes i).2).backend_health = Health.Healthy
      · rw [if_pos hb]
        constructor
        · exact ((ihr.1).cons i).trans hperm.symm
        · rw [ihr.2, List.length_set]
      · rw [if_neg hb]
        constructor
        · exact List.perm_middle.trans (((ihr.1).cons i).trans hperm.symm)
        · rw [ihr.2, List.length_set]

/-- Probing the unhealthy vector conserves the ids and the record-vector
length. -/
theorem lr_probe_unhealthy_perm (probes : Nat → TransportResult × Nat) :
    ∀ (ids : List Nat) (data : List BackendSt),
      ((lr_probe_unhealthy probes data ids).2.1 ++
          (lr_probe_unhealthy probes data ids).2.2).Perm ids ∧
      (lr_probe_unhealthy probes data ids).1.length = data.length := by
  intro ids
  induction ids with
  | nil => intro data; simp [lr_probe_unhealthy]
  | cons i is ih =>
    intro data
    simp only [lr_probe_unhealthy]
    have ihr := ih
      (data.set i (SimpleBackend.check_health (backendAt data i) (probes i).1 (probes i).2))
    by_cases hb : (SimpleBackend.check_health (backendAt data i) (probes i).1
        (probes i).2).backend_health = Health.Healthy
    · rw [if_pos hb]
      exact ⟨(ihr.1).cons i, by rw [ihr.2, List.length_set]⟩
    · rw [if_neg hb]
      exact ⟨List.perm_middle.trans ((ihr.1).cons i), by rw [ihr.2, List.length_set]⟩

/-- Two appended partitions may be repartitioned blockwise. -/
theorem perm_append_swap (a b c d : List Nat) :
    ((a ++ b) ++ (c ++ d)).Perm ((a ++ c) ++ (b ++ d)) := by
  have h1 : (b ++ (c ++ d)).Perm (c ++ (b ++ d)) := by
    rw [← List.append_assoc, ← List.append_assoc]
    exact List.Perm.append_right d List.perm_append_comm
  have e1 : (a ++ b) ++ (c ++ d) = a ++ (b ++ (c ++ d)) := by rw [List.append_assoc]
  have e2 : a ++ (c ++ (b ++ d)) = (a ++ c) ++ (b ++ d) := by rw [List.append_assoc]
  rw [e1, ← e2]
  exact List.Perm.append_left a h1

/-- A health-check cycle conserves the multiset of ids across the two
partitions and the record-vector length. -/
theorem lr_check_perm (s : LRState) (probes : Nat → TransportResult × Nat) :
    (lr_ids (lr_check_backend_healths s probes)).Perm (lr_ids s) ∧
    (lr_check_backend_healths s probes).data.length = s.data.length := by
  obtain ⟨hd1, hd2⟩ := lr_drain_healthy_perm probes s.healthy_backends.length
    s.data s.healthy_backends rfl
  obtain ⟨hp1, hp2⟩ := lr_probe_unhealthy_perm probes s.unhealthy_backends
    (lr_drain_healthy probes s.data s.healthy_backends s.healthy_backends.length).1
  constructor
  · rw [lr_check_backend_healths]
    dsimp only [lr_ids]
    refine (perm_append_swap _ _ _ _).trans ?_
    exact (List.Perm.append hd1 hp1)
  · rw [lr_check_backend_healths]
    dsimp only
    rw [hp2, hd2]

/-- The pool invariant: the record vector still has the configured length
and the ids across the two partitions are a permutation of 0..n-1. -/
def LRInv (n : Nat) (s : LRState) : Prop :=
  s.data.length = n ∧ (lr_ids s).Perm (List.range n)

/-- Every pool operation preserves the invariant. -/
theorem lr_step_inv {n : Nat} {s : LRState} (hInv : LRInv n s) (op : LROp) :
    LRInv n (lr_step s op) := by
  cases op with
  | sendRequest tr elapsed =>
    cases hreq : lr_send_request s tr elapsed with
    | error e =>
      simpa only [lr_step, hreq] using hInv
    | ok r =>
      obtain ⟨resp, i, s'⟩ := r
      have hp := lr_send_request_perm hreq
      constructor
      · simp only [lr_step, hreq]
        rw [hp.2]
        exact hInv.1
      · simp only [lr_step, hreq]
        exact hp.1.trans hInv.2
  | healthCycle probes =>
    have hp := lr_check_perm s probes
    exact ⟨by rw [lr_step, hp.2]; exact hInv.1, by rw [lr_step]; exact hp.1.trans hInv.2⟩

/-- Every state reachable from construction satisfies the invariant. -/
theorem lr_run_inv (data : List BackendSt) (ops : List LROp) :
    LRInv data.length (lr_run data ops) := by
  rw [lr_run]
  have hgen : ∀ (l : List LROp) (s : LRState),
      LRInv data.length s → LRInv data.length (l.foldl lr_step s) := by
    intro l
    induction l with
    | nil => intro s hs; exact hs
    | cons op l ih => intro s hs; exact ih _ (lr_step_inv hs op)
  refine hgen ops (lr_init data) ⟨rfl, ?_⟩
  simp [lr_init, lr_ids]

/-- C3: after any sequence of dispatched requests and health-check cycles
from construction, every configured backend id sits in exactly one of the
two partitions (healthy XOR unhealthy), and the partition sizes add up to
the number of backends configured at startup. -/
theorem C3_partition_exact (data : List BackendSt) (ops : List LROp) :
    (∀ i, i < data.length →
      Xor' (i ∈ (lr_run data ops).healthy_backends)
           (i ∈ (lr_run data ops).unhealthy_backends)) ∧
    (lr_run data ops).healthy_backends.length +
      (lr_run data ops).unhealthy_backends.length = data.length := by
  obtain ⟨hlen, hperm⟩ := lr_run_inv data ops
  have hnodup : (lr_ids (lr_run data ops)).Nodup :=
    hperm.nodup_iff.mpr (List.nodup_range _)
  obtain ⟨hnh, hnu, hdisj⟩ := List.nodup_append.mp hnodup
  constructor
  · intro i hi
    have himem : i ∈ lr_ids (lr_run data ops) :=
      hperm.mem_iff.mpr (List.mem_range.mpr hi)
    rcases List.mem_append.mp himem with hH | hU
    · exact Or.inl ⟨hH, fun hU2 => hdisj hH hU2⟩
    · exact Or.inr ⟨hU, fun hH2 => hdisj hH2 hU⟩
  · have hl := hperm.length_eq
    rw [lr_ids, List.length_append, List.length_range] at hl
    exact hl

/-- The two-backend pool used as a concrete scenario: A with response time
50ms, B with 10ms, both healthy. -/
def lrDemo : List BackendSt :=
  [{ backend_address := "A", backend_health := Health.Healthy, response_time_ms := 50 },
   { backend_address := "B", backend_health := Health.Healthy, response_time_ms := 10 }]

/-- Witness for C3 after one failed dispatched request on the two-backend
pool. -/
theorem C3_partition_exact_witness :
    Xor' (0 ∈ (lr_run lrDemo [LROp.sendRequest TransportResult.exn 70]).healthy_backends)
         (0 ∈ (lr_run lrDemo [LROp.sendRequest TransportResult.exn 70]).unhealthy_backends) ∧
    (lr_run lrDemo [LROp.sendRequest TransportResult.exn 70]).healthy_backends.length +
      (lr_run lrDemo [LROp.sendRequest TransportResult.exn 70]).unhealthy_backends.length = 2 :=
  ⟨(C3_partition_exact lrDemo [LROp.sendRequest TransportResult.exn 70]).1 0 (by decide),
   (C3_partition_exact lrDemo [LROp.sendRequest TransportResult.exn 70]).2⟩

/-- C1: a successful least-response-time selection picks the top of the
healthy queue, a backend whose last_response_time is minimal over the
healthy partition as it stands at the moment of selection: no healthy
backend has a strictly smaller last_response_time. -/
theorem C1_selects_min_response_time (s : LRState) (tr : TransportResult) (elapsed : Nat)
    (resp : HttpResponse) (i : Nat) (s' : LRState)
    (h : lr_send_request s tr elapsed = Except.ok (resp, i, s')) :
    ∀ j ∈ s.healthy_backends,
      ¬ (backendAt s.data j).response_time_ms < (backendAt s.data i).response_time_ms := by
  obtain ⟨htop, -, -, -, -⟩ := lr_send_request_cases h
  intro j hj
  exact Nat.not_lt.mpr (pq_top_min htop j hj)

/-- Witness for C1 on the two-backend pool: the selection picks B (id 1,
10ms), and A (id 0, 50ms) is not strictly faster. -/
theorem C1_selects_min_response_time_witness :
    ¬ (backendAt lrDemo 0).response_time_ms < (backendAt lrDemo 1).response_time_ms :=
  C1_selects_min_response_time (lr_init lrDemo) (TransportResult.ok { statusCode := 200, body := "ok" })
    40 { statusCode := 200, body := "ok" } 1
    { data := [{ backend_address := "A", backend_health := Health.Healthy, response_time_ms := 50 },
               { backend_address := "B", backend_health := Health.Healthy, response_time_ms := 40 }],
      healthy_backends := [1, 0], unhealthy_backends := [] }
    (by rfl) 0 (by decide)

/-- An operation is a dispatched request (as opposed to a monitor cycle,
which is the only operation that can return a demoted backend to the
healthy partition). -/
def isForwardOp : LROp → Prop
  | LROp.sendRequest _ _ => True
  | LROp.healthCycle _ => False

/-- A dispatched request keeps an id that is outside the healthy partition
outside it, and preserves Nodup of the healthy partition. -/
theorem lr_send_step_keeps_out {s : LRState} {i : Nat}
    (hn : s.healthy_backends.Nodup) (hi : i ∉ s.healthy_backends)
    (tr : TransportResult) (elapsed : Nat) :
    (lr_step s (LROp.sendRequest tr elapsed)).healthy_backends.Nodup ∧
    i ∉ (lr_step s (LROp.sendRequest tr elapsed)).healthy_backends := by
  cases hreq : lr_send_request s tr elapsed with
  | error e =>
    simp only [lr_step, hreq]
    exact ⟨hn, hi⟩
  | ok r =>
    obtain ⟨resp, j, s'⟩ := r
    obtain ⟨htop, hresp, hdata, hfail, hok⟩ := lr_send_request_cases hreq
    have hjmem : j ∈ s.healthy_backends := pq_top_mem htop
    have hne : i ≠ j := fun hij => hi (hij ▸ hjmem)
    have hnerase : (s.healthy_backends.erase j).Nodup := hn.erase j
    have hierase : i ∉ s.healthy_backends.erase j :=
      fun hmem => hi (List.mem_of_mem_erase hmem)
    simp only [lr_step, hreq]
    by_cases hcond : resp.statusCode < 200 ∨ 206 < resp.statusCode
    · obtain ⟨hh, -⟩ := hfail hcond
      rw [hh]
      exact ⟨hnerase, hierase⟩
    · obtain ⟨hh, -⟩ := hok hcond
      rw [hh]
      constructor
      · exact List.nodup_cons.mpr
          ⟨fun hmem => ((hn.mem_erase_iff).mp hmem).1 rfl, hnerase⟩
      · intro hmem
        rcases List.mem_cons.mp hmem with h1 | h1
        · exact hne h1
        · exact hierase h1

/-- Dispatched requests alone never return an id to the healthy
partition. -/
theorem lr_forward_ops_keep_out {i : Nat} :
    ∀ (ops : List LROp) (s : LRState), (∀ op ∈ ops, isForwardOp op) →
      s.healthy_backends.Nodup → i ∉ s.healthy_backends →
      i ∉ (ops.foldl lr_step s).healthy_backends := by
  intro ops
  induction ops with
  | nil => intro s _ _ hi; exact hi
  | cons op ops ih =>
    intro s hall hn hi
    cases op with
    | sendRequest tr elapsed =>
      have hstep := lr_send_step_keeps_out hn hi tr elapsed
      exact ih _ (fun op2 h2 => hall op2 (List.mem_cons_of_mem _ h2)) hstep.1 hstep.2
    | healthCycle probes =>
      exact (hall _ (List.mem_cons_self _ _)).elim

/-- C7: when a dispatched request's outcome is a failure — transport error,
timeout, or an upstream status outside 200..206, all of which surface as a
returned status outside that range — the selected backend is pushed to the
unhealthy partition, leaves the healthy partition, and no later dispatched
request selects it (every selection is the top of the healthy queue), until
a health-check cycle reclassifies it. -/
theorem C7_failure_demotes (s : LRState) (tr : TransportResult) (elapsed : Nat)
    (resp : HttpResponse) (i : Nat) (s' : LRState)
    (hn : s.healthy_backends.Nodup)
    (h : lr_send_request s tr elapsed = Except.ok (resp, i, s'))
    (hfail : resp.statusCode < 200 ∨ 206 < resp.statusCode) :
    i ∈ s'.unhealthy_backends ∧
    i ∉ s'.healthy_backends ∧
    (∀ (ops : List LROp), (∀ op ∈ ops, isForwardOp op) →
      ∀ (tr2 : TransportResult) (el2 : Nat) (resp2 : HttpResponse) (j : Nat) (s2 : LRState),
        lr_send_request (ops.foldl lr_step s') tr2 el2 = Except.ok (resp2, j, s2) → j ≠ i) := by
  obtain ⟨htop, hresp, hdata, hfailc, hokc⟩ := lr_send_request_cases h
  obtain ⟨hh, hu⟩ := hfailc hfail
  have hiout : i ∉ s'.healthy_backends := by
    rw [hh]
    intro hmem
    exact ((hn.mem_erase_iff).mp hmem).1 rfl
  refine ⟨by rw [hu]; simp, hiout, ?_⟩
  intro ops hall tr2 el2 resp2 j s2 h2 hji
  have hkeep := lr_forward_ops_keep_out ops s' hall (by rw [hh]; exact hn.erase i) hiout
  obtain ⟨htop2, -, -, -, -⟩ := lr_send_request_cases h2
  exact hkeep (hji ▸ pq_top_mem htop2)

/-- The pool state after the failed request of the witness scenario: B got
demoted with its 70ms timeout recorded. -/
def lrFailState : LRState :=
  { data := [{ backend_address := "A", backend_health := Health.Healthy, response_time_ms := 50 },
             { backend_address := "B", backend_health := Health.Unhealthy, response_time_ms := 70 }],
    healthy_backends := [0], unhealthy_backends := [1] }

/-- Witness for C7: on the two-backend pool, a transport failure of the
selected backend B (id 1) demotes it, and the next selection picks A
(id 0), not B. -/
theorem C7_failure_demotes_witness :
    1 ∈ lrFailState.unhealthy_backends ∧
    1 ∉ lrFailState.healthy_backends ∧
    (0 : Nat) ≠ 1 := by
  have hc := C7_failure_demotes (lr_init lrDemo) TransportResult.exn 70 synthesized503 1
    lrFailState (by decide) (by rfl) (by decide)
  refine ⟨hc.1, hc.2.1, ?_⟩
  exact hc.2.2 [] (by intro op hop; cases hop) TransportResult.exn 5 synthesized503 0
    { data := [{ backend_address := "A", backend_health := Health.Unhealthy, response_time_ms := 5 },
               { backend_address := "B", backend_health := Health.Unhealthy, response_time_ms := 70 }],
      healthy_backends := [], unhealthy_backends := [1, 0] }
    (by rfl)

/-- Events relevant to the critical-section discipline of the pool: an
acquire or release of the backend_semaphore (the counting semaphore of
permit count 1 guarding the partitions and cursor), and a network await
(a co_await of a backend forward or probe, i.e. a suspension point). -/
inductive Ev where
  | acquire
  | release
  | net
deriving DecidableEq, Repr

/-- Scan of an event trace: true when some network await happens while the
semaphore is held (positive depth). -/
def held_across_net_go : Nat → List Ev → Bool
  | _, [] => false
  | depth, Ev.acquire :: t => held_across_net_go (depth + 1) t
  | depth, Ev.release :: t => held_across_net_go (depth - 1) t
  | depth, Ev.net :: t => decide (0 < depth) || held_across_net_go depth t

/-- True when the trace performs network I/O inside the mutation region. -/
def held_across_net (evs : List Ev) : Bool :=
  held_across_net_go 0 evs

/-- Event trace of LeastResponseLoadBalancer::send_request on the non-empty
path (least_response_load_balancer.cpp lines 96-111): acquire the
backend_semaphore; top and pop the heap (no events); co_await
backend->send_request — network I/O; push to a partition (no event);
release. -/
def lr_send_request_events : List Ev :=
  [Ev.acquire, Ev.net, Ev.release]

/-- Event trace of LeastResponseLoadBalancer::check_backend_healths
(least_response_load_balancer.cpp lines 29-60) with h backends in the
healthy queue and u in the unhealthy vector: acquire the backend_semaphore;
co_await backend->check_health once per backend of both partitions; install
the new partitions (no event); release. -/
def lr_check_healths_events (h u : Nat) : List Ev :=
  Ev.acquire :: (List.replicate (h + u) Ev.net ++ [Ev.release])

/-- Event trace of RoundRobinLoadBalancer::next_available_backend
(round_robin_load_balancer.cpp lines 20-48): the semaphore wraps only the
cursor scan, with no network I/O inside; the co_await of the forward in
RoundRobinLoadBalancer::send_request happens after the release. -/
def rr_next_available_events : List Ev :=
  [Ev.acquire, Ev.release, Ev.net]

/-- C8 is violated by the code: the least-response balancer's send_request
co_awaits the backend forward while holding the backend_semaphore, and its
health-check cycle likewise co_awaits every probe inside the region (shown
here for one healthy and one unhealthy backend); the round-robin variant's
selection, by contrast, keeps its network I/O outside the region. -/
theorem C8_region_held_across_await :
    held_across_net lr_send_request_events = true ∧
    held_across_net (lr_check_healths_events 1 1) = true ∧
    held_across_net rr_next_available_events = false := by
  refine ⟨rfl, ?_, rfl⟩
  rfl

/-- Configuration produced by the CLI of main.cpp (lines 175-180). The
defaults are those of the variables the options are bound to: an empty
backend list and a 10 second health-check interval. -/
structure CliConfig where
  backend_addresses : List String
  interval_health_check_s : Int
deriving DecidableEq, Repr

/-- Parse errors CLI11 can produce for the options registered in main.cpp. -/
inductive CliError where
  | extraPositional (tok : String)
  | unknownOption (tok : String)
  | missingOptionValue (opt : String)
  | badIntValue (tok : String)
deriving DecidableEq, Repr

/-- Which option is currently consuming values. -/
inductive CliPending where
  | backends (got : Nat)
  | interval
deriving DecidableEq, Repr

/-- Models the CLI11 parse loop for exactly the two options registered in
main.cpp lines 175-180 — a multi-value string option -b (--backends) and a
single-value integer option -c (--health-check), in their space-separated
form. Neither option is marked required in main.cpp (no ->required() call),
so CLI11 accepts an invocation in which -b never appears and leaves
backend_addresses at its default, the empty vector; a flagged option that
receives no value, an unknown dash token, a non-integer value for -c and a
stray positional are rejected as CLI11 rejects them. -/
def cli_parse_go : Option CliPending → CliConfig → List String → Except CliError CliConfig
  | pending, cfg, [] =>
    match pending with
    | some (CliPending.backends 0) => Except.error (CliError.missingOptionValue "--backends")
    | some CliPending.interval => Except.error (CliError.missingOptionValue "--health-check")
    | _ => Except.ok cfg
  | pending, cfg, t :: rest =>
    if t = "-b" ∨ t = "--backends" then
      match pending with
      | some (CliPending.backends 0) => Except.error (CliError.missingOptionValue "--backends")
      | some CliPending.interval => Except.error (CliError.missingOptionValue "--health-check")
      | _ => cli_parse_go (some (CliPending.backends 0)) cfg rest
    else if t = "-c" ∨ t = "--health-check" then
      match pending with
      | some (CliPending.backends 0) => Except.error (CliError.missingOptionValue "--backends")
      | some CliPending.interval => Except.error (CliError.missingOptionValue "--health-check")
      | _ => cli_parse_go (some CliPending.interval) cfg rest
    else if t.startsWith "-" then
      Except.error (CliError.unknownOption t)
    else
      match pending with
      | some (CliPending.backends n) =>
        cli_parse_go (some (CliPending.backends (n + 1)))
          { cfg with backend_addresses := cfg.backend_addresses ++ [t] } rest
      | some CliPending.interval =>
        match t.toInt? with
        | some v => cli_parse_go none { cfg with interval_health_check_s := v } rest
        | none => Except.error (CliError.badIntValue t)
      | none => Except.error (CliError.extraPositional t)

/-- CLI11_PARSE in main: parse argv after the program name against the two
registered options, starting from the defaults backend_addresses = {} and
interval_health_check_s = 10. -/
def cli_parse (args : List String) : Except CliError CliConfig :=
  cli_parse_go none { backend_addresses := [], interval_health_check_s := 10 } args

/-- C9 is violated by the code: the -b (--backends) option is not marked required in
main.cpp, so the invocation with no arguments at all parses successfully,
yielding zero configured backends and the default interval, and main
proceeds to start the server instead of exiting non-zero. -/
theorem C9_parse_succeeds_without_backends :
    cli_parse [] = Except.ok { backend_addresses := [], interval_health_check_s := 10 } := by
  rfl

end LoadBalancerProof
